import Mathlib

/-!
Shallow embedding of the `RedisMutex` class (src/unnamed/part_000) of the
karimsa/warlock repository.

The Redis store is modelled as an association list from keys to
(value, ttl-in-ms) pairs; the three store operations the code uses are
modelled after Redis semantics:
  * `SET key value PX ttl NX`  →  `Store.setPxNx`
  * `DEL key`                  →  `Store.del`
  * the compare-and-delete Lua script sent by `#releaseLock`, executed
    atomically, is the body of `releaseLock` below.

Asynchrony is erased: every store round-trip is an explicit state-passing
call.  Randomness (`uuidv4()`) and the wall clock (`Date.now()`) are
supplied by the environment: a single-attempt call takes the minted token
as a parameter, and the retry loop reads an `Env` giving, for attempt
`k`, the token minted for it, the store state it observes, and the value
of `Date.now() - start` computed after it fails.  The unbounded
`while (true)` loop is given explicit fuel; the outer `Option` is `none`
exactly when the loop is still running after `fuel` attempts.

JavaScript truthiness on `string | null` (`if (lockerId)`) is modelled by
`jsTruthy`: `null` and the empty string are falsy.
-/

/-- A key/value entry of the store: key, stored value, TTL in milliseconds
as passed via `PX`. -/
abbrev Store := List (String × String × Int)

/-- Redis `GET`: the value stored at `k`, if any. -/
def Store.get : Store → String → Option String
  | [], _ => none
  | e :: s, k => if e.1 = k then some e.2.1 else Store.get s k

/-- The TTL recorded for key `k`, if the key is present. -/
def Store.getTTL : Store → String → Option Int
  | [], _ => none
  | e :: s, k => if e.1 = k then some e.2.2 else Store.getTTL s k

/-- Redis `DEL k`: remove every entry for key `k`. -/
def Store.del : Store → String → Store
  | [], _ => []
  | e :: s, k => if e.1 = k then Store.del s k else e :: Store.del s k

/-- Redis `SET k v PX px NX`: create the entry only if the key is absent;
`none` is the nil reply (key already present), `some` the new store. -/
def Store.setPxNx (s : Store) (k v : String) (px : Int) : Option Store :=
  if (Store.get s k).isSome then none else some ((k, v, px) :: s)

/-- JavaScript truthiness of a `string | null` value: `null` and `""` are
falsy, every other string is truthy. -/
def jsTruthy : Option String → Bool
  | none => false
  | some t => !(t == "")

/-- The immutable identity of a mutex: `#name`, `#id`, `#timeout` (TTL in
milliseconds).  The Redis client handle is replaced by explicit store
passing. -/
structure RedisMutex where
  name : String
  id : String
  timeout : Int
deriving Repr, DecidableEq

/-- The options record of `withOptimisticLock` / `#obtainLockOptimistically`:
`maxWaitTime` required, `maxAttempts` and `timeBetweenAttempts` optional. -/
structure RedisOptimisticLockOptions where
  maxWaitTime : Int
  maxAttempts : Option Nat := none
  timeBetweenAttempts : Option Int := none
deriving Repr, DecidableEq

/-- The string `` `lock:${this.#name}:${this.#id}` ``. -/
def getRedisKey (m : RedisMutex) : String :=
  "lock:" ++ m.name ++ ":" ++ m.id

/-- `forceResetLock`: `await this.#redisClient.del(this.getRedisKey())`. -/
def forceResetLock (m : RedisMutex) (s : Store) : Store :=
  Store.del s (getRedisKey m)

/-- `#obtainLock`, with the token minted by `uuidv4()` passed in as
`lockerId`: one `SET key lockerId PX timeout NX`; on a nil reply return
`null`, otherwise return the token.  First component is the returned
value, second the store afterwards. -/
def obtainLock (m : RedisMutex) (lockerId : String) (s : Store) :
    Option String × Store :=
  match Store.setPxNx s (getRedisKey m) lockerId m.timeout with
  | none => (none, s)
  | some s2 => (some lockerId, s2)

/-- `#releaseLock(lockerId)`: the atomic Lua script
`if GET key == lockerId then DEL key else return 0`. -/
def releaseLock (m : RedisMutex) (lockerId : String) (s : Store) : Store :=
  if Store.get s (getRedisKey m) = some lockerId then
    Store.del s (getRedisKey m)
  else
    s

/-- The environment feeding the retry loop: for attempt `k`, the store
state it observes, the reading of `Date.now() - start` taken after it
fails, and the token `uuidv4()` mints for it. -/
structure Env where
  stores : Nat → Store
  elapsed : Nat → Int
  tokens : Nat → String

/-- The spin delay computed on entry to `#obtainLockOptimistically`:
`timeBetweenAttempts ?? Math.max(10, Math.floor(maxWaitTime / 2))`.
`Int.fdiv` is `Math.floor` of the halved value. -/
def spinTime (opts : RedisOptimisticLockOptions) : Int :=
  opts.timeBetweenAttempts.getD (max 10 (Int.fdiv opts.maxWaitTime 2))

/-- The `while (true)` loop of `#obtainLockOptimistically`, starting at
attempt index `k` with `fuel` remaining iterations.  Each iteration calls
`#obtainLock` with the token the environment mints for this attempt; a
truthy token is returned at once, otherwise the elapsed-time reading is
compared against `maxWaitTime` and the loop either gives up (`null`) or
sleeps `spinTime` (erased here; the clock advance is in `Env.elapsed`)
and retries.  The result carries the returned value (token plus the
store after its write, or `none` for `null`) and the index of the final
attempt; the outer `none` means the fuel ran out with the loop still
going.  Note the source assigns `maxAttempts ??= Infinity` and then
never reads it: the loop below is its faithful translation and does not
consult `opts.maxAttempts`. -/
def obtainLockOptimistically (m : RedisMutex) (opts : RedisOptimisticLockOptions)
    (env : Env) : Nat → Nat → Option (Option (String × Store) × Nat)
  | 0, _ => none
  | fuel + 1, k =>
    let acq := obtainLock m (env.tokens k) (env.stores k)
    if jsTruthy acq.1 then
      some (some (env.tokens k, acq.2), k)
    else if env.elapsed k > opts.maxWaitTime then
      some (none, k)
    else
      obtainLockOptimistically m opts env fuel (k + 1)

/-- Observable events of a scoped-execution call, in order: each store
acquisition attempt with the token it used, the start of the caller's
work, and each call of the release primitive with the token passed to
it. -/
inductive Event where
  | acquireAttempt (lockerId : String)
  | workRun
  | releaseCall (lockerId : String)
deriving Repr, DecidableEq

/-- True exactly on release events. -/
def Event.isRelease : Event → Bool
  | Event.releaseCall _ => true
  | _ => false

/-- How many times the release primitive was invoked in a trace. -/
def releaseCount (evs : List Event) : Nat :=
  (evs.filter Event.isRelease).length

/-- The acquisition events of attempts `0..k` of the retry loop. -/
def attemptEvents (env : Env) (k : Nat) : List Event :=
  (List.range (k + 1)).map (fun i => Event.acquireAttempt (env.tokens i))

/-- What a scoped-execution call can throw: the
`RedisMutexAcquisitionError` (carrying `lockName` and `lockId`), or the
caller's own failure propagated unchanged. -/
inductive MutexError (ε : Type) where
  | acquisitionFailed (lockName lockId : String)
  | workFailed (e : ε)
deriving Repr, DecidableEq

/-- `withLock(run)`: one `#obtainLock`; on a falsy token throw
`RedisMutexAcquisitionError`; otherwise run the work and, in a `finally`,
`#releaseLock(lockerId)`.  The caller's work is its outcome
`work : Except ε α`; the result is the value returned or error thrown,
the store afterwards, and the event trace. -/
def withLock {ε α : Type} (m : RedisMutex) (lockerId : String)
    (work : Except ε α) (s : Store) :
    Except (MutexError ε) α × Store × List Event :=
  let acq := obtainLock m lockerId s
  if jsTruthy acq.1 then
    let s2 := releaseLock m lockerId acq.2
    match work with
    | Except.ok v =>
        (Except.ok v, s2,
          [Event.acquireAttempt lockerId, Event.workRun, Event.releaseCall lockerId])
    | Except.error e =>
        (Except.error (MutexError.workFailed e), s2,
          [Event.acquireAttempt lockerId, Event.workRun, Event.releaseCall lockerId])
  else
    (Except.error (MutexError.acquisitionFailed m.name m.id), acq.2,
      [Event.acquireAttempt lockerId])

/-- `withOptimisticLock(run, options)`: `#obtainLockOptimistically`, then
the same throw-or-run-and-release body as `withLock`.  `none` when the
loop's fuel ran out. -/
def withOptimisticLock {ε α : Type} (m : RedisMutex) (work : Except ε α)
    (opts : RedisOptimisticLockOptions) (env : Env) (fuel : Nat) :
    Option (Except (MutexError ε) α × Store × List Event) :=
  match obtainLockOptimistically m opts env fuel 0 with
  | none => none
  | some (none, k) =>
      some (Except.error (MutexError.acquisitionFailed m.name m.id),
        env.stores k, attemptEvents env k)
  | some (some (t, s1), k) =>
      if jsTruthy (some t) then
        let s2 := releaseLock m t s1
        match work with
        | Except.ok v =>
            some (Except.ok v, s2,
              attemptEvents env k ++ [Event.workRun, Event.releaseCall t])
        | Except.error e =>
            some (Except.error (MutexError.workFailed e), s2,
              attemptEvents env k ++ [Event.workRun, Event.releaseCall t])
      else
        some (Except.error (MutexError.acquisitionFailed m.name m.id),
          s1, attemptEvents env k)

/-- A store in which the lock key `lock:jobs:1` is permanently held by
another party, with the clock reading 0 ms elapsed after every failed
attempt. -/
def heldEnv : Env where
  stores := fun _ => [("lock:jobs:1", "someone-else", 50)]
  elapsed := fun _ => 0
  tokens := fun _ => "fresh-token"

/-! ### Store lemmas -/

theorem Store.get_del_self (s : Store) (k : String) :
    Store.get (Store.del s k) k = none := by
  induction s with
  | nil => rfl
  | cons e s ih =>
    by_cases h : e.1 = k
    · simpa [Store.del, h] using ih
    · simp [Store.del, Store.get, h, ih]

theorem Store.get_del_other (s : Store) (k k2 : String) (h : k2 ≠ k) :
    Store.get (Store.del s k) k2 = Store.get s k2 := by
  induction s with
  | nil => rfl
  | cons e s ih =>
    by_cases he : e.1 = k
    · have hne : ¬ e.1 = k2 := fun hk => h (hk.symm.trans he)
      simp [Store.del, Store.get, he, hne, ih, Ne.symm h]
    · by_cases he2 : e.1 = k2
      · simp [Store.del, Store.get, he, he2, h]
      · simp [Store.del, Store.get, he, he2, ih]

theorem obtainLock_of_absent (m : RedisMutex) (t : String) (s : Store)
    (h : Store.get s (getRedisKey m) = none) :
    obtainLock m t s = (some t, (getRedisKey m, t, m.timeout) :: s) := by
  simp [obtainLock, Store.setPxNx, h]

theorem obtainLock_of_present (m : RedisMutex) (t : String) (s : Store)
    (h : (Store.get s (getRedisKey m)).isSome = true) :
    obtainLock m t s = (none, s) := by
  simp [obtainLock, Store.setPxNx, h]

theorem obtainLock_fst (m : RedisMutex) (t : String) (s : Store) :
    (obtainLock m t s).1 = none ∨ (obtainLock m t s).1 = some t := by
  by_cases h : (Store.get s (getRedisKey m)).isSome
  · simp [obtainLock, Store.setPxNx, h]
  · simp [obtainLock, Store.setPxNx, h]

theorem obtainLock_frame (m : RedisMutex) (t : String) (s : Store) (k2 : String)
    (hk : k2 ≠ getRedisKey m) :
    Store.get (obtainLock m t s).2 k2 = Store.get s k2 := by
  by_cases h : (Store.get s (getRedisKey m)).isSome
  · simp [obtainLock, Store.setPxNx, h]
  · simp [obtainLock, Store.setPxNx, h, Store.get, Ne.symm hk]

theorem releaseLock_of_match (m : RedisMutex) (t : String) (s : Store)
    (h : Store.get s (getRedisKey m) = some t) :
    releaseLock m t s = Store.del s (getRedisKey m) := by
  simp [releaseLock, h]

theorem releaseLock_of_mismatch (m : RedisMutex) (t : String) (s : Store)
    (h : Store.get s (getRedisKey m) ≠ some t) :
    releaseLock m t s = s := by
  simp [releaseLock, h]

theorem releaseLock_frame (m : RedisMutex) (t : String) (s : Store) (k2 : String)
    (hk : k2 ≠ getRedisKey m) :
    Store.get (releaseLock m t s) k2 = Store.get s k2 := by
  by_cases h : Store.get s (getRedisKey m) = some t
  · simp [releaseLock, h, Store.get_del_other s _ k2 hk]
  · simp [releaseLock, h]

theorem forceResetLock_frame (m : RedisMutex) (s : Store) (k2 : String)
    (hk : k2 ≠ getRedisKey m) :
    Store.get (forceResetLock m s) k2 = Store.get s k2 :=
  Store.get_del_other s (getRedisKey m) k2 hk

/-! ### Claim theorems -/

/-- C2: `#releaseLock` deletes the lock key exactly when the stored value
equals the supplied token; on a mismatch or an absent key the store is
returned unchanged, other keys are never touched, and the call completes
normally (it is a total function, so a vanished lock raises nothing). -/
theorem releaseLock_safe (m : RedisMutex) (t : String) (s : Store) :
    (Store.get s (getRedisKey m) = some t →
      releaseLock m t s = Store.del s (getRedisKey m) ∧
      Store.get (releaseLock m t s) (getRedisKey m) = none) ∧
    (Store.get s (getRedisKey m) ≠ some t → releaseLock m t s = s) ∧
    (∀ k2, k2 ≠ getRedisKey m →
      Store.get (releaseLock m t s) k2 = Store.get s k2) := by
  refine ⟨fun h => ⟨releaseLock_of_match m t s h, ?_⟩,
    releaseLock_of_mismatch m t s, fun k2 hk => releaseLock_frame m t s k2 hk⟩
  rw [releaseLock_of_match m t s h]
  exact Store.get_del_self s (getRedisKey m)

/-- Witness for C2 at concrete stores: deletion on an owned record,
no-op on a record held by a different token, and a foreign key is left
alone. -/
theorem releaseLock_safe_witness :
    Store.get (releaseLock ⟨"jobs", "1", 50⟩ "tok"
        [("lock:jobs:1", "tok", 50)]) (getRedisKey ⟨"jobs", "1", 50⟩) = none ∧
    releaseLock ⟨"jobs", "1", 50⟩ "tok" [("lock:jobs:1", "other", 50)] =
      [("lock:jobs:1", "other", 50)] ∧
    Store.get (releaseLock ⟨"jobs", "1", 50⟩ "tok" [("x", "v", 5)]) "x" =
      Store.get [("x", "v", 5)] "x" :=
  ⟨((releaseLock_safe ⟨"jobs", "1", 50⟩ "tok" [("lock:jobs:1", "tok", 50)]).1
      (by decide)).2,
   (releaseLock_safe ⟨"jobs", "1", 50⟩ "tok" [("lock:jobs:1", "other", 50)]).2.1
      (by decide),
   (releaseLock_safe ⟨"jobs", "1", 50⟩ "tok" [("x", "v", 5)]).2.2 "x" (by decide)⟩

/-- C9: `forceResetLock` unconditionally removes the lock record: for
every store state, whatever token held the key, the key is absent
afterwards. -/
theorem forceResetLock_unconditional (m : RedisMutex) (s : Store) :
    Store.get (forceResetLock m s) (getRedisKey m) = none :=
  Store.get_del_self s (getRedisKey m)

/-- C7: the spin delay is `timeBetweenAttempts` when supplied, and
`max(10, floor(maxWaitTime / 2))` when not. -/
theorem spinTime_spec (mw : Int) (ma : Option Nat) (t : Int) :
    spinTime ⟨mw, ma, none⟩ = max 10 (Int.fdiv mw 2) ∧
    spinTime ⟨mw, ma, some t⟩ = t :=
  ⟨rfl, rfl⟩

/-- C8: the derived key is the colon-delimited `lock:<name>:<id>`, and
each store primitive — acquire, release, forced reset — leaves every
other key untouched (it addresses only the derived key). -/
theorem getRedisKey_spec (m : RedisMutex) :
    getRedisKey m = "lock:" ++ m.name ++ ":" ++ m.id ∧
    (∀ t s k2, k2 ≠ getRedisKey m →
      Store.get (obtainLock m t s).2 k2 = Store.get s k2) ∧
    (∀ t s k2, k2 ≠ getRedisKey m →
      Store.get (releaseLock m t s) k2 = Store.get s k2) ∧
    (∀ s k2, k2 ≠ getRedisKey m →
      Store.get (forceResetLock m s) k2 = Store.get s k2) :=
  ⟨rfl, fun t s k2 hk => obtainLock_frame m t s k2 hk,
   fun t s k2 hk => releaseLock_frame m t s k2 hk,
   fun s k2 hk => forceResetLock_frame m s k2 hk⟩

/-- Witness for C8: a foreign key `x` survives each primitive on a
concrete mutex. -/
theorem getRedisKey_spec_witness :
    Store.get (obtainLock ⟨"jobs", "1", 50⟩ "tok" [("x", "v", 5)]).2 "x" =
      Store.get [("x", "v", 5)] "x" ∧
    Store.get (releaseLock ⟨"jobs", "1", 50⟩ "tok" [("x", "v", 5)]) "x" =
      Store.get [("x", "v", 5)] "x" ∧
    Store.get (forceResetLock ⟨"jobs", "1", 50⟩ [("x", "v", 5)]) "x" =
      Store.get [("x", "v", 5)] "x" :=
  ⟨(getRedisKey_spec ⟨"jobs", "1", 50⟩).2.1 "tok" [("x", "v", 5)] "x" (by decide),
   (getRedisKey_spec ⟨"jobs", "1", 50⟩).2.2.1 "tok" [("x", "v", 5)] "x" (by decide),
   (getRedisKey_spec ⟨"jobs", "1", 50⟩).2.2.2 [("x", "v", 5)] "x" (by decide)⟩

/-! ### Retry-loop lemmas -/

theorem jsTruthy_eq_true (r : Option String) (h : jsTruthy r = true) :
    ∃ t, r = some t ∧ t ≠ "" := by
  cases r with
  | none => cases h
  | some t =>
    refine ⟨t, rfl, ?_⟩
    simpa [jsTruthy] using h

theorem opt_success_inv (m : RedisMutex) (opts : RedisOptimisticLockOptions)
    (env : Env) :
    ∀ fuel k0 tk s1 k,
      obtainLockOptimistically m opts env fuel k0 = some (some (tk, s1), k) →
      tk = env.tokens k ∧ tk ≠ "" ∧
      obtainLock m (env.tokens k) (env.stores k) = (some tk, s1) := by
  intro fuel
  induction fuel with
  | zero =>
    intro k0 tk s1 k h
    exact absurd h (by simp [obtainLockOptimistically])
  | succ n ih =>
    intro k0 tk s1 k h
    simp only [obtainLockOptimistically] at h
    split at h
    · rename_i hb
      simp only [Option.some.injEq, Prod.mk.injEq] at h
      obtain ⟨⟨h1, h2⟩, h3⟩ := h
      subst h3
      obtain ⟨t, ht, hne⟩ := jsTruthy_eq_true _ hb
      rcases obtainLock_fst m (env.tokens k0) (env.stores k0) with hf | hf
      · rw [hf] at ht; cases ht
      · refine ⟨h1.symm, ?_, ?_⟩
        · rw [← h1]
          rw [hf] at ht
          injection ht with ht2
          rw [ht2]
          exact hne
        · rw [← h1, ← h2]
          rw [Prod.ext_iff]
          exact ⟨hf, rfl⟩
    · split at h
      · cases h
      · exact ih _ _ _ _ h

/-- C5: the loop body attempts acquisition before any deadline check.  A
truthy first attempt returns the token at once, whatever `maxWaitTime`
is; only after a failed attempt is the elapsed reading compared, giving
up exactly when it strictly exceeds `maxWaitTime` and otherwise
retrying.  In particular one attempt always occurs, even for a zero or
negative `maxWaitTime`. -/
theorem optimistic_first_attempt (m : RedisMutex)
    (opts : RedisOptimisticLockOptions) (env : Env) (n : Nat) :
    (jsTruthy (obtainLock m (env.tokens 0) (env.stores 0)).1 = true →
      obtainLockOptimistically m opts env (n + 1) 0 =
        some (some (env.tokens 0, (obtainLock m (env.tokens 0) (env.stores 0)).2), 0)) ∧
    (jsTruthy (obtainLock m (env.tokens 0) (env.stores 0)).1 = false →
      env.elapsed 0 > opts.maxWaitTime →
      obtainLockOptimistically m opts env (n + 1) 0 = some (none, 0)) ∧
    (jsTruthy (obtainLock m (env.tokens 0) (env.stores 0)).1 = false →
      ¬ env.elapsed 0 > opts.maxWaitTime →
      obtainLockOptimistically m opts env (n + 1) 0 =
        obtainLockOptimistically m opts env n 1) := by
  refine ⟨fun h => ?_, fun h h2 => ?_, fun h h2 => ?_⟩
  · simp [obtainLockOptimistically, h]
  · simp [obtainLockOptimistically, h, h2]
  · simp [obtainLockOptimistically, h, h2]

/-- Witness for C5 with `maxWaitTime = -5`: on a free key the first
attempt succeeds immediately despite the exhausted budget, and on a
held key the loop reports the sentinel after that single attempt. -/
theorem optimistic_first_attempt_witness :
    obtainLockOptimistically ⟨"jobs", "1", 50⟩ ⟨-5, none, none⟩
        ⟨fun _ => [], fun _ => 0, fun _ => "tok"⟩ 3 0 =
      some (some ("tok", [("lock:jobs:1", "tok", 50)]), 0) ∧
    obtainLockOptimistically ⟨"jobs", "1", 50⟩ ⟨-5, none, none⟩ heldEnv 3 0 =
      some (none, 0) :=
  ⟨(optimistic_first_attempt ⟨"jobs", "1", 50⟩ ⟨-5, none, none⟩
      ⟨fun _ => [], fun _ => 0, fun _ => "tok"⟩ 2).1 (by rfl),
   (optimistic_first_attempt ⟨"jobs", "1", 50⟩ ⟨-5, none, none⟩ heldEnv 2).2.1
      (by rfl) (by decide)⟩

/-- C6: a single acquisition attempt performs exactly one conditional
`SET .. PX timeout NX` of the supplied fresh token at the derived key —
on a free key the store gains precisely that record (value the token,
TTL the configured timeout) and the token is returned; on a held key it
returns the `null` sentinel and the store is untouched.  Inside the
retry loop the attempt that succeeds at index `k` returns the token the
environment minted for attempt `k`: each iteration uses its own fresh
token. -/
theorem obtainLock_single_write (m : RedisMutex) (t : String) (s : Store) :
    (Store.get s (getRedisKey m) = none →
      (obtainLock m t s).1 = some t ∧
      (obtainLock m t s).2 = (getRedisKey m, t, m.timeout) :: s ∧
      Store.get (obtainLock m t s).2 (getRedisKey m) = some t ∧
      Store.getTTL (obtainLock m t s).2 (getRedisKey m) = some m.timeout) ∧
    ((Store.get s (getRedisKey m)).isSome = true →
      (obtainLock m t s).1 = none ∧ (obtainLock m t s).2 = s) ∧
    (∀ opts env fuel k0 tk s1 k,
      obtainLockOptimistically m opts env fuel k0 = some (some (tk, s1), k) →
      tk = env.tokens k) := by
  refine ⟨fun h => ?_, fun h => ?_,
    fun opts env fuel k0 tk s1 k hl =>
      (opt_success_inv m opts env fuel k0 tk s1 k hl).1⟩
  · rw [obtainLock_of_absent m t s h]
    exact ⟨rfl, rfl, by simp [Store.get], by simp [Store.getTTL]⟩
  · rw [obtainLock_of_present m t s h]
    exact ⟨rfl, rfl⟩

/-- Witness for C6: a concrete free-key write, a concrete held-key
no-op, and the loop of `optimistic_first_attempt_witness`'s shape
returning the token minted for attempt 0. -/
theorem obtainLock_single_write_witness :
    (obtainLock ⟨"jobs", "1", 50⟩ "tok" []).2 = [("lock:jobs:1", "tok", 50)] ∧
    (obtainLock ⟨"jobs", "1", 50⟩ "tok" [("lock:jobs:1", "other", 50)]).1 = none ∧
    "tok" = Env.tokens ⟨fun _ => [], fun _ => 0, fun _ => "tok"⟩ 0 :=
  ⟨((obtainLock_single_write ⟨"jobs", "1", 50⟩ "tok" []).1 (by rfl)).2.1,
   ((obtainLock_single_write ⟨"jobs", "1", 50⟩ "tok"
      [("lock:jobs:1", "other", 50)]).2.1 (by rfl)).1,
   (obtainLock_single_write ⟨"jobs", "1", 50⟩ "tok" []).2.2
      ⟨-5, none, none⟩ ⟨fun _ => [], fun _ => 0, fun _ => "tok"⟩ 3 0 "tok"
      [("lock:jobs:1", "tok", 50)] 0 (by rfl)⟩

/-- C1 (refuted — the code ignores `maxAttempts`): with `maxAttempts = 1`,
`maxWaitTime = 1000` and the key permanently held while the clock reads
0 ms elapsed, the loop is still running after any number of attempts
(`none` means the fuel of that many iterations ran out), so it is not
the case that exactly one acquire call happens before the failure
sentinel; in particular after 5 attempts the sentinel predicted by the
claim has not been produced. -/
theorem maxAttempts_has_no_effect :
    (∀ fuel k,
      obtainLockOptimistically ⟨"jobs", "1", 50⟩ ⟨1000, some 1, none⟩
        heldEnv fuel k = none) ∧
    obtainLockOptimistically ⟨"jobs", "1", 50⟩ ⟨1000, some 1, none⟩
        heldEnv 5 0 ≠ some (none, 0) := by
  have hall : ∀ fuel k,
      obtainLockOptimistically ⟨"jobs", "1", 50⟩ ⟨1000, some 1, none⟩
        heldEnv fuel k = none := by
    intro fuel
    induction fuel with
    | zero => intro k; rfl
    | succ n ih =>
      intro k
      have h1 : jsTruthy (obtainLock ⟨"jobs", "1", 50⟩ (heldEnv.tokens k)
          (heldEnv.stores k)).1 = false := by rfl
      have h2 : ¬ heldEnv.elapsed k > (1000 : Int) := by
        show ¬ (0 : Int) > 1000
        decide
      simp only [obtainLockOptimistically]
      simp [h1, h2]
      exact ih (k + 1)
  exact ⟨hall, by simp [hall 5 0]⟩

/-! ### Trace lemmas -/

theorem attemptEvents_no_release (env : Env) (k : Nat) :
    (attemptEvents env k).filter Event.isRelease = [] := by
  have hmap : ∀ l : List Nat,
      (l.map fun i => Event.acquireAttempt (env.tokens i)).filter
        Event.isRelease = [] := by
    intro l
    induction l with
    | nil => rfl
    | cons a l ih => simp [Event.isRelease, ih]
  exact hmap _

theorem releaseCount_attemptEvents (env : Env) (k : Nat) :
    releaseCount (attemptEvents env k) = 0 := by
  simp [releaseCount, attemptEvents_no_release]

theorem workRun_not_mem_attemptEvents (env : Env) (k : Nat) :
    Event.workRun ∉ attemptEvents env k := by
  simp [attemptEvents]

theorem releaseCall_not_mem_attemptEvents (env : Env) (u : String) (k : Nat) :
    Event.releaseCall u ∉ attemptEvents env k := by
  simp [attemptEvents]

theorem releaseCount_append (l1 l2 : List Event) :
    releaseCount (l1 ++ l2) = releaseCount l1 + releaseCount l2 := by
  simp [releaseCount, List.filter_append]

theorem withLock_success_trace {ε α : Type} (m : RedisMutex) (t : String)
    (work : Except ε α) (s : Store) (ht : ¬ t = "")
    (h : Store.get s (getRedisKey m) = none) :
    (withLock m t work s).2.2 =
      [Event.acquireAttempt t, Event.workRun, Event.releaseCall t] ∧
    (withLock m t work s).2.1 = releaseLock m t (obtainLock m t s).2 ∧
    (∀ v, work = Except.ok v → (withLock m t work s).1 = Except.ok v) ∧
    (∀ e, work = Except.error e →
      (withLock m t work s).1 = Except.error (MutexError.workFailed e)) := by
  cases work with
  | ok v => simp [withLock, obtainLock_of_absent m t s h, jsTruthy, ht]
  | error e => simp [withLock, obtainLock_of_absent m t s h, jsTruthy, ht]

theorem withLock_failure_trace {ε α : Type} (m : RedisMutex) (t : String)
    (work : Except ε α) (s : Store)
    (h : (Store.get s (getRedisKey m)).isSome = true) :
    withLock m t work s =
      (Except.error (MutexError.acquisitionFailed m.name m.id), s,
       [Event.acquireAttempt t]) := by
  simp [withLock, obtainLock_of_present m t s h, jsTruthy]

theorem withOptimisticLock_success_trace {ε α : Type} (m : RedisMutex)
    (work : Except ε α) (opts : RedisOptimisticLockOptions) (env : Env)
    (fuel : Nat) (tk : String) (s1 : Store) (k : Nat)
    (hl : obtainLockOptimistically m opts env fuel 0 = some (some (tk, s1), k)) :
    withOptimisticLock m work opts env fuel =
      some (match work with
            | Except.ok v => Except.ok v
            | Except.error e => Except.error (MutexError.workFailed e),
        releaseLock m tk s1,
        attemptEvents env k ++ [Event.workRun, Event.releaseCall tk]) := by
  have hne := (opt_success_inv m opts env fuel 0 tk s1 k hl).2.1
  cases work with
  | ok v => simp [withOptimisticLock, hl, jsTruthy, hne]
  | error e => simp [withOptimisticLock, hl, jsTruthy, hne]

theorem withOptimisticLock_failure_trace {ε α : Type} (m : RedisMutex)
    (work : Except ε α) (opts : RedisOptimisticLockOptions) (env : Env)
    (fuel k : Nat)
    (hl : obtainLockOptimistically m opts env fuel 0 = some (none, k)) :
    withOptimisticLock m work opts env fuel =
      some (Except.error (MutexError.acquisitionFailed m.name m.id),
        env.stores k, attemptEvents env k) := by
  simp [withOptimisticLock, hl]

/-- C3: in both scoped-execution variants the release primitive runs
exactly once precisely when acquisition succeeded: on success the work's
normal result is returned (and its failure rethrown as-is) with the
store already put through release, and on acquisition failure release is
never invoked. -/
theorem scoped_release_iff_acquired {ε α : Type} (m : RedisMutex) (t : String)
    (work : Except ε α) (s : Store) (opts : RedisOptimisticLockOptions)
    (env : Env) (fuel : Nat) :
    (¬ t = "" → Store.get s (getRedisKey m) = none →
      releaseCount (withLock m t work s).2.2 = 1 ∧
      (withLock m t work s).2.1 = releaseLock m t (obtainLock m t s).2 ∧
      (∀ v, work = Except.ok v → (withLock m t work s).1 = Except.ok v) ∧
      (∀ e, work = Except.error e →
        (withLock m t work s).1 = Except.error (MutexError.workFailed e))) ∧
    ((Store.get s (getRedisKey m)).isSome = true →
      releaseCount (withLock m t work s).2.2 = 0) ∧
    (∀ tk s1 k,
      obtainLockOptimistically m opts env fuel 0 = some (some (tk, s1), k) →
      ∃ r, withOptimisticLock m work opts env fuel = some r ∧
        releaseCount r.2.2 = 1 ∧
        r.2.1 = releaseLock m tk s1 ∧
        (∀ v, work = Except.ok v → r.1 = Except.ok v) ∧
        (∀ e, work = Except.error e →
          r.1 = Except.error (MutexError.workFailed e))) ∧
    (∀ k, obtainLockOptimistically m opts env fuel 0 = some (none, k) →
      ∃ r, withOptimisticLock m work opts env fuel = some r ∧
        releaseCount r.2.2 = 0) := by
  refine ⟨fun ht h => ?_, fun h => ?_, fun tk s1 k hl => ?_, fun k hl => ?_⟩
  · obtain ⟨h1, h2, h3, h4⟩ := withLock_success_trace m t work s ht h
    exact ⟨by simp [h1, releaseCount, Event.isRelease], h2, h3, h4⟩
  · rw [withLock_failure_trace m t work s h]
    simp [releaseCount, Event.isRelease]
  · refine ⟨_, withOptimisticLock_success_trace m work opts env fuel tk s1 k hl,
      ?_, rfl, ?_, ?_⟩
    · rw [releaseCount_append, releaseCount_attemptEvents]
      rfl
    · intro v hv; subst hv; rfl
    · intro e he; subst he; rfl
  · refine ⟨_, withOptimisticLock_failure_trace m work opts env fuel k hl, ?_⟩
    simp [releaseCount_attemptEvents]

/-- Witness for C3: on a free key the successful `withLock` run releases
exactly once, on a held key it never releases. -/
theorem scoped_release_iff_acquired_witness :
    releaseCount (withLock ⟨"jobs", "1", 50⟩ "tok"
      (Except.ok 42 : Except Unit Nat) []).2.2 = 1 ∧
    releaseCount (withLock ⟨"jobs", "1", 50⟩ "tok"
      (Except.ok 42 : Except Unit Nat) [("lock:jobs:1", "other", 50)]).2.2 = 0 :=
  ⟨((scoped_release_iff_acquired ⟨"jobs", "1", 50⟩ "tok"
      (Except.ok 42 : Except Unit Nat) [] ⟨-5, none, none⟩ heldEnv 1).1
      (by decide) (by rfl)).1,
   (scoped_release_iff_acquired ⟨"jobs", "1", 50⟩ "tok"
      (Except.ok 42 : Except Unit Nat) [("lock:jobs:1", "other", 50)]
      ⟨-5, none, none⟩ heldEnv 1).2.1 (by rfl)⟩

/-- C4: when no lock is obtained, both variants throw the
`RedisMutexAcquisitionError` carrying the mutex's name and id, and the
supplied work never runs. -/
theorem acquisition_failure_raises {ε α : Type} (m : RedisMutex) (t : String)
    (work : Except ε α) (s : Store) (opts : RedisOptimisticLockOptions)
    (env : Env) (fuel : Nat) :
    ((Store.get s (getRedisKey m)).isSome = true →
      (withLock m t work s).1 =
        Except.error (MutexError.acquisitionFailed m.name m.id) ∧
      Event.workRun ∉ (withLock m t work s).2.2) ∧
    (∀ k, obtainLockOptimistically m opts env fuel 0 = some (none, k) →
      withOptimisticLock m work opts env fuel =
        some (Except.error (MutexError.acquisitionFailed m.name m.id),
          env.stores k, attemptEvents env k) ∧
      Event.workRun ∉ attemptEvents env k) := by
  refine ⟨fun h => ?_, fun k hl =>
    ⟨withOptimisticLock_failure_trace m work opts env fuel k hl,
     workRun_not_mem_attemptEvents env k⟩⟩
  rw [withLock_failure_trace m t work s h]
  simp

/-- Witness for C4: a held key makes `withLock` throw the acquisition
error without running the work, and the one-failed-attempt loop makes
`withOptimisticLock` do the same. -/
theorem acquisition_failure_raises_witness :
    (withLock ⟨"jobs", "1", 50⟩ "tok" (Except.ok 42 : Except Unit Nat)
      [("lock:jobs:1", "other", 50)]).1 =
      Except.error (MutexError.acquisitionFailed "jobs" "1") ∧
    Event.workRun ∉ (withLock ⟨"jobs", "1", 50⟩ "tok"
      (Except.ok 42 : Except Unit Nat) [("lock:jobs:1", "other", 50)]).2.2 :=
  (acquisition_failure_raises ⟨"jobs", "1", 50⟩ "tok"
    (Except.ok 42 : Except Unit Nat) [("lock:jobs:1", "other", 50)]
    ⟨-5, none, none⟩ heldEnv 1).1 (by rfl)

/-- C10: the token handed to the release primitive is exactly the token
this call's own acquisition returned — in `withLock` every release event
carries the acquired token, and in `withOptimisticLock` every release
event carries the token minted for the attempt that succeeded in this
very call. -/
theorem release_token_is_own {ε α : Type} (m : RedisMutex) (t : String)
    (work : Except ε α) (s : Store) (opts : RedisOptimisticLockOptions)
    (env : Env) (fuel : Nat) :
    (¬ t = "" → Store.get s (getRedisKey m) = none →
      ∀ u, Event.releaseCall u ∈ (withLock m t work s).2.2 ↔ u = t) ∧
    (∀ tk s1 k,
      obtainLockOptimistically m opts env fuel 0 = some (some (tk, s1), k) →
      tk = env.tokens k ∧
      ∀ r, withOptimisticLock m work opts env fuel = some r →
        ∀ u, Event.releaseCall u ∈ r.2.2 ↔ u = tk) := by
  refine ⟨fun ht h u => ?_, fun tk s1 k hl => ?_⟩
  · obtain ⟨h1, _, _, _⟩ := withLock_success_trace m t work s ht h
    simp [h1]
  · refine ⟨(opt_success_inv m opts env fuel 0 tk s1 k hl).1, fun r hr u => ?_⟩
    have hres := withOptimisticLock_success_trace m work opts env fuel tk s1 k hl
    rw [hr] at hres
    have hr2 : r.2.2 = attemptEvents env k ++
        [Event.workRun, Event.releaseCall tk] := by
      rw [Option.some.inj hres]
    rw [hr2]
    simp [releaseCall_not_mem_attemptEvents env u k]

/-- Witness for C10: the successful concrete `withLock` run contains the
release event for its own token. -/
theorem release_token_is_own_witness :
    Event.releaseCall "tok" ∈ (withLock ⟨"jobs", "1", 50⟩ "tok"
      (Except.ok 42 : Except Unit Nat) []).2.2 :=
  ((release_token_is_own ⟨"jobs", "1", 50⟩ "tok"
      (Except.ok 42 : Except Unit Nat) [] ⟨-5, none, none⟩ heldEnv 1).1
    (by decide) (by rfl) "tok").2 rfl
